import Mathlib

/-!
Verification development for the decision-and-lifecycle engine of the
`polyclaude` trading bot (files `config.py`, `strategy_engine.py`, `bot.py`).

Floats are idealised as exact rationals (`ℚ`).  Transcendental primitives
(`math.log`, `math.exp`, `math.atan`, `math.sqrt`, `math.pi`) are passed as
an abstract oracle structure `Transcend`, so every definition stays
computable and every proved property holds for any values the float library
could return.  Python's `int(...)` truncation and `round(..., 4)` (banker's
rounding) are modelled exactly.  Dashboard rendering and log statements are
elided throughout: they never feed back into trading decisions.
-/

/-- Truncation toward zero, Python's `int(float)` on a real value. -/
def pyTrunc (x : ℚ) : ℤ := if 0 ≤ x then ⌊x⌋ else -⌊-x⌋

/-- Banker's rounding to 4 decimal places, Python's `round(x, 4)` idealised
over exact rationals (round-half-to-even). -/
def pyRound4 (x : ℚ) : ℚ :=
  let y : ℚ := x * 10000
  let n : ℤ := ⌊y⌋
  let frac : ℚ := y - n
  let r : ℤ :=
    if frac > 1/2 then n + 1
    else if frac < 1/2 then n
    else if n % 2 = 0 then n else n + 1
  (r : ℚ) / 10000

/-- Market token side, the strings `"Up"` / `"Down"` in the source. -/
inductive Side where
  | up
  | down
deriving DecidableEq, Repr

/-- Signal side, the strings `"YES"` / `"NO"` in the source. -/
inductive SigSide where
  | yes
  | no
deriving DecidableEq, Repr

/-! ## config.py -/

/-- Polymarket CLOB minimum share count (`config.MIN_SHARES`). -/
def MIN_SHARES : ℤ := 3

/-- Conservative fractional Kelly scalar (`config.KELLY_FRACTION`). -/
def KELLY_FRACTION : ℚ := 0.10

/-- Ascending stake-tier table (`config.BET_TIERS`). -/
def BET_TIERS : List ℚ :=
  [0.50, 1.00, 1.50, 2.00, 2.50, 3.00, 4.00, 5.00,
   7.50, 10.00, 12.50, 15.00, 17.50, 20.00, 22.50, 25.00,
   30.00, 35.00, 40.00, 45.00, 50.00,
   60.00, 70.00, 80.00, 90.00, 100.00]

/-- Cap multiplier on the standard bet (`config.MAX_BET_MULTIPLIER`). -/
def MAX_BET_MULTIPLIER : ℚ := 5

/-- Tier-ladder hysteresis dead band (`config.TIER_HYSTERESIS`). -/
def TIER_HYSTERESIS : ℚ := 0.80

/-- Anti-longshot entry floor (`config.ENTRY_MIN_PRICE`). -/
def ENTRY_MIN_PRICE : ℚ := 0.10

/-- Maximum admissible entry ask (`config.ENTRY_MAX_PRICE`). -/
def ENTRY_MAX_PRICE : ℚ := 0.95

/-- Early-exit trigger bid (`config.EJECT_PRICE`). -/
def EJECT_PRICE : ℚ := 0.99

/-- Blackout window before expiry (`config.EXPIRY_BLACKOUT_SECONDS`). -/
def EXPIRY_BLACKOUT_SECONDS : ℚ := 20

/-- Aggressive slippage added when crossing the spread
(`config.TAKER_SLIPPAGE_CENTS`). -/
def TAKER_SLIPPAGE_CENTS : ℚ := 0.02

/-- Fixed execution-friction subtracted from the raw edge
(`config.EXECUTION_FRICTION`). -/
def EXECUTION_FRICTION : ℚ := 0.015

/-- Absolute dollar expected-value floor (`config.MIN_EV_USDC`). -/
def MIN_EV_USDC : ℚ := 0.05

/-- Minimum edge required near expiry (`config.BASE_MIN_EDGE`). -/
def BASE_MIN_EDGE : ℚ := 0.015

/-- Edge required at window open (`config.MAX_START_EDGE`). -/
def MAX_START_EDGE : ℚ := 0.040

/-- Loop body of `config.get_tier_bet`: Python's
`for i, bet in enumerate(BET_TIERS): if bet <= raw: target_idx = i else: break`
with running index `i` and accumulator `acc` (initially both `0`). -/
def tierGo (raw : ℚ) : List ℚ → ℕ → ℕ → ℕ
  | [], _, acc => acc
  | b :: rest, i, acc => if b ≤ raw then tierGo raw rest (i + 1) i else acc

/-- Target tier index computed by the scan loop in `config.get_tier_bet`. -/
def targetIdx (raw : ℚ) : ℕ := tierGo raw BET_TIERS 0 0

/-- Embedding of `config.get_tier_bet(balance, current_tier_idx)`:
returns `(standard_bet_usdc, tier_index)` with downward hysteresis. -/
def get_tier_bet (balance : ℚ) (current_tier_idx : ℕ) : ℚ × ℕ :=
  let raw : ℚ := balance * 0.03
  let target_idx : ℕ := targetIdx raw
  if target_idx < current_tier_idx ∧ current_tier_idx < BET_TIERS.length then
    let current_bet : ℚ := BET_TIERS.getD current_tier_idx 0
    if current_bet * TIER_HYSTERESIS ≤ raw then
      (current_bet, current_tier_idx)
    else
      (BET_TIERS.getD target_idx 0, target_idx)
  else
    (BET_TIERS.getD target_idx 0, target_idx)

/-! ## strategy_engine.py — estimators and probability model -/

/-- Oracle bundling the transcendental float primitives used by the engine
(`math.log`, `math.exp`, `math.atan`, `math.sqrt` and the constant
`math.pi`).  All engine-level theorems are proved for every oracle. -/
structure Transcend where
  log : ℚ → ℚ
  exp : ℚ → ℚ
  atan : ℚ → ℚ
  sqrt : ℚ → ℚ
  pi : ℚ

/-- Last price of each one-second bucket, key order sorted ascending:
the dict comprehension `{int(ts): price for price, ts in tick_deque}`
followed by `[sec_bars[k] for k in sorted(sec_bars.keys())]`. -/
def secBarPrices (ticks : List (ℚ × ℚ)) : List ℚ :=
  let pairs : List (ℤ × ℚ) := ticks.map (fun t => (pyTrunc t.2, t.1))
  let keys : List ℤ := (pairs.map Prod.fst).dedup
  let sortedKeys : List ℤ := List.insertionSort (· ≤ ·) keys
  sortedKeys.map (fun k => (((pairs.filter (fun q => q.1 = k)).map Prod.snd).getLastD 0))

/-- Consecutive log-returns of a price list (`math.log(p[i] / p[i-1])`). -/
def logReturns (tr : Transcend) : List ℚ → List ℚ
  | [] => []
  | [_] => []
  | a :: b :: rest => tr.log (b / a) :: logReturns tr (b :: rest)

/-- Sample standard deviation, Python `statistics.stdev` with the square
root taken by the float oracle. -/
def sampleStdev (tr : Transcend) (xs : List ℚ) : ℚ :=
  let n : ℚ := xs.length
  let mean : ℚ := xs.sum / n
  let var : ℚ := ((xs.map (fun x => (x - mean) * (x - mean))).sum) / (n - 1)
  tr.sqrt var

/-- Embedding of `strategy_engine.compute_micro_vol(tick_deque)`. -/
def compute_micro_vol (tr : Transcend) (ticks : List (ℚ × ℚ)) : ℚ :=
  if ticks.length < 2 then 0
  else
    let sec_prices := secBarPrices ticks
    if sec_prices.length < 2 then 0
    else
      let log_rets := logReturns tr sec_prices
      if log_rets.length < 2 then 0
      else sampleStdev tr log_rets

/-- Embedding of `strategy_engine.compute_tick_velocity(tick_deque, lookback)`. -/
def compute_tick_velocity (ticks : List (ℚ × ℚ)) (lookback : ℚ) : ℚ :=
  if ticks.length < 2 then 0
  else
    let latest := ticks.getLastD (0, 0)
    let cutoff := latest.2 - lookback
    let ref_price : ℚ :=
      match ticks.reverse.find? (fun t => t.2 ≤ cutoff) with
      | some t => t.1
      | none => (ticks.headD (0, 0)).1
    |latest.1 - ref_price|

/-- Embedding of `strategy_engine.student_t_cdf_approx(distance, vol, time_left)`:
closed-form Student-t CDF with 3 degrees of freedom, clamped to
`[0.001, 0.999]`, with the degenerate binary branch for
`vol ≤ 0 or time_left ≤ 0`. -/
def student_t_cdf_approx (tr : Transcend)
    (distance_to_strike vol time_left : ℚ) : ℚ :=
  if vol ≤ 0 ∨ time_left ≤ 0 then
    if 0 < distance_to_strike then 0.999 else 0.001
  else
    let sigma := vol * tr.sqrt time_left
    let t := distance_to_strike / sigma
    let sqrt3 := tr.sqrt 3
    let cdf := 0.5 + (1 / tr.pi) * (tr.atan (t / sqrt3) + (t * sqrt3) / (3 + t * t))
    max 0.001 (min 0.999 cdf)

/-! ## strategy_engine.py — signal generation -/

/-- Tunable: `$10` move in 3 s aborts entry (`TOXIC_FLOW_THRESH`). -/
def TOXIC_FLOW_THRESH : ℚ := 10.0

/-- Tunable: lookback seconds for velocity (`TOXIC_LOOKBACK`). -/
def TOXIC_LOOKBACK : ℚ := 3

/-- Tunable: momentum weight on log-odds (`MOMENTUM_WEIGHT`). -/
def MOMENTUM_WEIGHT : ℚ := 0.15

/-- Tunable: minimum tick velocity to enter (`MIN_TICK_VELOCITY`). -/
def MIN_TICK_VELOCITY : ℚ := 2.0

/-- Immutable trade signal emitted by the engine (`strategy_engine.Signal`). -/
structure Signal where
  side : SigSide
  true_prob : ℚ
  edge : ℚ
  size : ℚ
  micro_vol : ℚ
  tick_velocity : ℚ
  momentum_sign : ℚ
  market_price : ℚ
  ev_usdc : ℚ
deriving DecidableEq, Repr

/-- Snapshot of a live position (`strategy_engine.OpenPosition`). -/
structure OpenPosition where
  side : Side
  average_entry_price : ℚ
  size_usdc : ℚ
  shares : ℚ := 0
deriving DecidableEq, Repr

/-- Exit decision record (`strategy_engine.ExitSignal`). -/
structure ExitSignal where
  action : String
  reason : String
  side : Side
deriving DecidableEq, Repr

/-- Signed latest tick-over-tick move (`self.ticks[-1][0] - self.ticks[-2][0]`,
`0.0` with fewer than two ticks). -/
def signedMove (ticks : List (ℚ × ℚ)) : ℚ :=
  if 2 ≤ ticks.length then
    (ticks.getLastD (0, 0)).1 - ((ticks.dropLast).getLastD (0, 0)).1
  else 0

/-- Stages 2–3 of `generate_signals`: Student-t base probability, log-odds
transform, clamped momentum nudge, and logistic back-transform.  Factored
out of the main definition so theorems can name the adjusted probability. -/
def adjustedTrueProb (tr : Transcend)
    (vol velocity signed_move current_btc_price strike time_left : ℚ) : ℚ :=
  let distance := current_btc_price - strike
  let base_prob := student_t_cdf_approx tr distance vol time_left
  let p_clip := max 0.001 (min 0.999 base_prob)
  let lo := tr.log (p_clip / (1 - p_clip))
  let momentum_sign : ℚ := if 0 ≤ signed_move then 1 else -1
  let velocity_lr := if 0 < current_btc_price then tr.log (1 + velocity / current_btc_price) else 0
  let nudge0 := MOMENTUM_WEIGHT * momentum_sign * (velocity_lr / max vol (1/1000000))
  let nudge := max (-2) (min 2 nudge0)
  let lo2 := lo + nudge
  1 / (1 + tr.exp (-(max (-20) (min 20 lo2))))

/-- Net edge of the candidate side picked in stage 4–5 of `generate_signals`:
the larger of the two raw edges (ties to YES via `>=`) minus
`EXECUTION_FRICTION`. -/
def netEdgeOf (tr : Transcend) (ticks : List (ℚ × ℚ))
    (current_btc_price strike time_left yes_ask no_ask : ℚ) : ℚ :=
  let vol := compute_micro_vol tr ticks
  let velocity := compute_tick_velocity ticks TOXIC_LOOKBACK
  let true_prob := adjustedTrueProb tr vol velocity (signedMove ticks)
      current_btc_price strike time_left
  let yes_edge := true_prob - yes_ask
  let no_edge := (1 - true_prob) - no_ask
  (if no_edge ≤ yes_edge then yes_edge else no_edge) - EXECUTION_FRICTION

/-- Dynamic minimum-edge threshold of stage 6 of `generate_signals`:
`BASE_MIN_EDGE + (MAX_START_EDGE - BASE_MIN_EDGE) * (time_left / 300.0)`. -/
def dynamicMinEdge (time_left : ℚ) : ℚ :=
  BASE_MIN_EDGE + (MAX_START_EDGE - BASE_MIN_EDGE) * (time_left / 300)

/-- Embedding of `StrategyEngine.calculate_bet_size`.  Returns the sized
stake in USDC together with the updated `current_tier_idx` (the Python
method mutates `self.current_tier_idx` when it reaches the tier ladder). -/
def calculate_bet_size (eval_price balance net_edge velocity momentum_sign : ℚ)
    (candidate_side : SigSide) (vol : ℚ) (current_tier_idx : ℕ) : ℚ × ℕ :=
  if eval_price < ENTRY_MIN_PRICE then (0, current_tier_idx)
  else if ENTRY_MAX_PRICE < eval_price then (0, current_tier_idx)
  else if net_edge ≤ 0 then (0, current_tier_idx)
  else
    let tb := get_tier_bet balance current_tier_idx
    let standard_bet := tb.1
    let tier' := tb.2
    let denom := 1 - eval_price
    if denom ≤ 0 then (0, tier')
    else
      let f_full := net_edge / denom
      let uncertainty_penalty := min 0.5 (vol * 20)
      let is_sniping :=
        (candidate_side = SigSide.yes ∧ 0 < momentum_sign)
        ∨ (candidate_side = SigSide.no ∧ momentum_sign < 0)
      let sniper_mult : ℚ :=
        if is_sniping ∧ 2 ≤ velocity then min 2 (1 + velocity / 5) else 1
      let f_kelly := f_full * KELLY_FRACTION * (1 - uncertainty_penalty) * sniper_mult
      let kelly_size := f_kelly * balance
      let kelly_mult0 := if 0 < standard_bet then kelly_size / standard_bet else 1
      let kelly_mult := max 1 (min MAX_BET_MULTIPLIER kelly_mult0)
      let size0 := standard_bet * kelly_mult
      let max_size := standard_bet * MAX_BET_MULTIPLIER
      let size1 := min size0 max_size
      let shares : ℤ := if 0 < eval_price then pyTrunc (size1 / eval_price) else 0
      if shares < MIN_SHARES then (0, tier')
      else ((shares : ℚ) * eval_price, tier')

/-- Embedding of `StrategyEngine.generate_signals`.  Returns the optional
signal together with the updated `current_tier_idx`.  The candidate net
edge (`eval_edge - EXECUTION_FRICTION` in the source) is written through
the helper `netEdgeOf`, which recomputes the identical pure expression, so
that theorems can name the quantity. -/
def generate_signals (tr : Transcend) (ticks : List (ℚ × ℚ))
    (current_btc_price strike time_left yes_ask no_ask balance : ℚ)
    (current_tier_idx : ℕ) : Option Signal × ℕ :=
  let vol := compute_micro_vol tr ticks
  if vol ≤ 0 then (none, current_tier_idx)
  else
    let velocity := compute_tick_velocity ticks TOXIC_LOOKBACK
    let signed_move := signedMove ticks
    let true_prob := adjustedTrueProb tr vol velocity signed_move
        current_btc_price strike time_left
    let momentum_sign : ℚ := if 0 ≤ signed_move then 1 else -1
    let yes_prob := true_prob
    let no_prob := 1 - true_prob
    let yes_edge := yes_prob - yes_ask
    let no_edge := no_prob - no_ask
    let pick : SigSide × ℚ × ℚ :=
      if no_edge ≤ yes_edge then (SigSide.yes, yes_prob, yes_ask)
      else (SigSide.no, no_prob, no_ask)
    let candidate_side := pick.1
    let eval_prob := pick.2.1
    let eval_ask := pick.2.2
    let net_edge := netEdgeOf tr ticks current_btc_price strike time_left yes_ask no_ask
    if net_edge < dynamicMinEdge time_left then (none, current_tier_idx)
    else if eval_ask < ENTRY_MIN_PRICE then (none, current_tier_idx)
    else if TOXIC_FLOW_THRESH ≤ velocity ∧ candidate_side = SigSide.yes ∧ signed_move < 0 then
      (none, current_tier_idx)
    else if TOXIC_FLOW_THRESH ≤ velocity ∧ candidate_side = SigSide.no ∧ ¬signed_move < 0 then
      (none, current_tier_idx)
    else if velocity < MIN_TICK_VELOCITY then (none, current_tier_idx)
    else
      let sz := calculate_bet_size eval_ask balance net_edge velocity momentum_sign
          candidate_side vol current_tier_idx
      let size := sz.1
      let tier' := sz.2
      if size ≤ 0 then (none, tier')
      else
        let ev_usdc := net_edge * size
        if ev_usdc < MIN_EV_USDC then (none, tier')
        else
          (some { side := candidate_side
                  true_prob := eval_prob
                  edge := net_edge
                  size := size
                  micro_vol := vol
                  tick_velocity := velocity
                  momentum_sign := momentum_sign
                  market_price := eval_ask
                  ev_usdc := ev_usdc }, tier')

/-- Embedding of `StrategyEngine.check_exit_conditions`: single 99-cent
eject trigger against the live bid of the held side. -/
def check_exit_conditions (position : OpenPosition) (current_market_bid : ℚ) :
    Option ExitSignal :=
  if EJECT_PRICE ≤ current_market_bid then
    some { action := "SELL_TO_CLOSE"
           reason := "99c EJECT"
           side := position.side }
  else none

/-! ## bot.py — data model -/

/-- Completed-trade record kept in the dashboard history panel
(`dashboard.TradeRecord`); `bot.py` patches the most recent one during
background settlement correction. -/
structure TradeRecord where
  side : Side
  size : ℚ
  pnl : ℚ
  won : Bool
  timestamp : ℚ
deriving DecidableEq, Repr

/-- Identity of the active 5-minute market, the fields of the market dict
that the lifecycle logic reads (`condition_id`, `slug`). -/
structure Market where
  condition_id : String
  slug : String
deriving DecidableEq, Repr

/-- Append to a bounded buffer, evicting from the front when full —
`collections.deque(maxlen=n).append`. -/
def pushBounded {α : Type} (n : ℕ) (l : List α) (x : α) : List α :=
  let l2 := l ++ [x]
  if n < l2.length then l2.drop (l2.length - n) else l2

/-- Lifecycle-relevant mutable state of `bot.TradingBot` (dashboard-only
display fields and the component handles are elided; the dashboard's
`trade_history`, `wins`, `losses`, `total_pnl` mirrors are merged with the
bot's own session fields they duplicate). -/
structure BotState where
  ticks : List (ℚ × ℚ)
  active_market : Option Market
  position : Option OpenPosition
  window_start_price : Option ℚ
  placing_order : Bool
  exiting_order : Bool
  skip_first_window : Bool
  startup_market_cid : Option String
  trades_this_window : ℤ
  last_exit_time : ℚ
  total_pnl : ℚ
  wins : ℤ
  losses : ℤ
  trades : ℤ
  active_trade_id : Option String
  active_market_end_ts : ℚ
  basis_offset : ℚ
  basis_history : List ℚ
  circuit_breaker_until : ℚ
  trade_history : List TradeRecord
deriving Repr

/-- Result of an awaited Python call: a returned value or a raised
exception (all call sites in the lifecycle code catch the exception). -/
inductive PyResult (α : Type) where
  | ok : α → PyResult α
  | exn : PyResult α
deriving DecidableEq, Repr

/-- Fill amounts parsed from a truthy order response in
`_execute_entry_task` (`float(resp.get("takingAmount", 0) or 0)` and the
same for `makingAmount`; missing or unparsable fields parse to `0`). -/
structure EntryResp where
  takingAmount : ℚ
  makingAmount : ℚ
deriving DecidableEq, Repr

/-! ## bot.py — entry task -/

/-- Embedding of `TradingBot._execute_entry_task`.  `orderResult` is the
outcome of `poly.place_order` (`.ok none` covers a falsy response, `.exn`
a raised exception, the primary failure point); `journalResult` is the
outcome of `journal.open_trade` inside the non-critical bookkeeping block
(its failure is caught and leaves `_active_trade_id` unchanged).  The GTC
take-profit placement and the balance refresh touch no bot state and are
elided.  The dashboard `order_status` / `order_side` strings are display
fields and are elided. -/
def execute_entry_task (s : BotState) (order_price : ℚ) (position_side : Side)
    (orderResult : PyResult (Option EntryResp))
    (journalResult : PyResult String) : BotState :=
  let s1 := { s with trades_this_window := s.trades_this_window + 1 }
  match orderResult with
  | .exn =>
      { s1 with trades_this_window := s1.trades_this_window - 1, placing_order := false }
  | .ok none =>
      { s1 with trades_this_window := s1.trades_this_window - 1, placing_order := false }
  | .ok (some resp) =>
      let fill_shares := resp.takingAmount
      let fill_usdc := resp.makingAmount
      if fill_shares ≤ 0 then
        { s1 with trades_this_window := s1.trades_this_window - 1, placing_order := false }
      else
        let fill_price := if 0 < fill_shares then fill_usdc / fill_shares else order_price
        let s2 := { s1 with
          position := some { side := position_side
                             average_entry_price := fill_price
                             size_usdc := fill_usdc
                             shares := fill_shares } }
        let s3 := match journalResult with
          | .ok tid => { s2 with active_trade_id := some tid }
          | .exn => s2
        { s3 with placing_order := false }

/-! ## bot.py — exit task -/

/-- Embedding of `TradingBot._execute_exit_task`.  The captured position
fields (`sell_shares`, `pos_entry`, `pos_usdc`, `pos_side`) arrive as
arguments exactly as in the source.  `orderResult` is the outcome of the
SELL `poly.place_order` call, only consulted when `token_id` resolves
(`sell_resp` stays `None` otherwise).  The guard
`if sell_resp is None and token_id:` keeps the position for retry only
when a token id was present; with `token_id` falsy the clearing path runs
although no order was placed.  Balance refresh and journal close are
environment effects without further bot state (journal close nulls
`_active_trade_id`). -/
def execute_exit_task (s : BotState) (token_id : Option String)
    (effective_bid sell_shares pos_entry pos_usdc : ℚ) (pos_side : Side)
    (now : ℚ) (orderResult : PyResult (Option Unit)) : BotState :=
  match token_id, orderResult with
  | some _, .exn => { s with exiting_order := false }
  | some _, .ok none => { s with exiting_order := false }
  | _, _ =>
      let early_pnl := if 0 < pos_entry
        then (effective_bid - pos_entry) * (pos_usdc / pos_entry) else 0
      let won := 0 ≤ early_pnl
      { s with
        position := none
        trades := s.trades + 1
        total_pnl := s.total_pnl + early_pnl
        wins := if won then s.wins + 1 else s.wins
        losses := if won then s.losses else s.losses + 1
        trade_history := pushBounded 50 s.trade_history
          { side := pos_side, size := pos_usdc, pnl := early_pnl
            won := decide won, timestamp := now }
        active_trade_id := none
        last_exit_time := now
        exiting_order := false }

/-! ## bot.py — expiry settlement -/

/-- Local instantaneous winner guess in `_settle_market`:
`up_wins = (start_price is not None) and (final_btc_price >= start_price)`. -/
def localWinner (window_start_price : Option ℚ) (final_btc_price : ℚ) : Side :=
  match window_start_price with
  | some sp => if sp ≤ final_btc_price then Side.up else Side.down
  | none => Side.down

/-- Settlement PnL applied by `_settle_market` for a held position against
a winner: `(1 - entry) * (size / entry)` on a win, `-size` on a loss. -/
def settlePnl (pos : OpenPosition) (winner : Side) : ℚ :=
  if pos.side = winner
  then (1 - pos.average_entry_price) * (pos.size_usdc / pos.average_entry_price)
  else -pos.size_usdc

/-- Embedding of `TradingBot._settle_market(final_btc_price)`.
`pnl_raises` injects an exception at the PnL computation inside the `try`
block (the division by the entry price; it fires after `self.trades += 1`
and is caught by the `except` clause).  The returned `Bool` records
whether the `_background_settle` task was spawned.  The `finally` block
always runs and resets every window-scoped field. -/
def settle_market (s : BotState) (final_btc_price now : ℚ) (pnl_raises : Bool) :
    BotState × Bool :=
  match s.active_market with
  | none => (s, false)
  | some _ =>
      let winner := localWinner s.window_start_price final_btc_price
      let tryResult : BotState × Bool :=
        match s.position with
        | none => (s, true)
        | some pos =>
            let s2 := { s with trades := s.trades + 1 }
            if pnl_raises then (s2, false)
            else
              let pnl := settlePnl pos winner
              ({ s2 with
                 wins := if pos.side = winner then s2.wins + 1 else s2.wins
                 losses := if pos.side = winner then s2.losses else s2.losses + 1
                 total_pnl := s2.total_pnl + pnl
                 trade_history := pushBounded 50 s2.trade_history
                   { side := pos.side, size := pos.size_usdc, pnl := pnl
                     won := decide (pos.side = winner), timestamp := now }
                 active_trade_id := none }, true)
      let sf := tryResult.1
      ({ sf with
         position := none
         active_market := none
         window_start_price := none
         trades_this_window := 0
         last_exit_time := 0
         basis_offset := 0
         basis_history := []
         placing_order := false
         exiting_order := false
         skip_first_window := false }, tryResult.2)

/-! ## bot.py — background settlement correction -/

/-- Embedding of `TradingBot._background_settle`.  `api_winner` is the
authoritative outcome returned by `poly.get_market_winner` (`none` also
covers a raised-and-caught exception, which leaves the state untouched
just like a falsy API answer); `traded_pos` is the position captured at
settlement time.  On disagreement a delta correction is applied to the
cumulative stats and the most recent trade record is patched in place. -/
def background_settle (s : BotState) (local_winner : Side)
    (traded_pos : Option OpenPosition) (api_winner : Option Side) : BotState :=
  match api_winner, traded_pos with
  | some w, some pos =>
      if w ≠ local_winner then
        let shares := pos.size_usdc / pos.average_entry_price
        let correct_pnl := if pos.side = w
          then (1 - pos.average_entry_price) * shares else -pos.size_usdc
        let wrong_pnl := if pos.side = w
          then -pos.size_usdc else (1 - pos.average_entry_price) * shares
        let delta := correct_pnl - wrong_pnl
        let s2 := { s with
          total_pnl := s.total_pnl + delta
          wins := if pos.side = w then s.wins + 1 else s.wins - 1
          losses := if pos.side = w then s.losses - 1 else s.losses + 1 }
        if s2.trade_history = [] then s2
        else
          let last := s2.trade_history.getLastD
            { side := Side.up, size := 0, pnl := 0, won := false, timestamp := 0 }
          { s2 with trade_history :=
              s2.trade_history.dropLast
                ++ [{ last with won := decide (pos.side = w), pnl := correct_pnl }] }
      else s
  | _, _ => s

/-! ## bot.py — tick handler control flow -/

/-- Modelled from the spec: `StrategyEngine.update_tick`, invoked by the
tick handler (`bot.py`, hot path), is not defined anywhere under `src/`.
The spec describes this call as the O(1) incremental estimator update over
the tick window; the engine reads the very deque object the handler has
already appended to, so the update touches no lifecycle or decision state
and is modelled as the identity on the bot state. -/
def engineUpdateTick (s : BotState) : BotState := s

/-- Terminal branch taken by one invocation of `_on_price_tick` — which
single `return` path of the handler fired for this tick. -/
inductive TickAction where
  | droppedStale
  | noMarket
  | settled
  | exitChecked
  | exitSkipped
  | orderInFlight
  | skippedFirstWindow
  | startupMarketGuard
  | windowCapReached
  | cooldownActive
  | breakerBlocked
  | entryEvaluated
deriving DecidableEq, Repr

/-- Embedding of the guard chain of `TradingBot._on_price_tick(price,
quantity, timestamp_ms)`: the buffer append, the stale-tick circuit
breaker, and the ordered sequence of early returns down to the dispatch
points.  Returns the updated state together with the branch taken; the
bodies dispatched at the terminal branches (`settle_market`, the exit
check, the entry evaluation) are embedded separately.  Dashboard display
updates are elided. -/
def on_price_tick (s : BotState) (price timestamp_ms now : ℚ) :
    BotState × TickAction :=
  let ts := timestamp_ms / 1000
  let s1 := { s with ticks := pushBounded 120 s.ticks (price, ts) }
  if 1/2 < now - ts then
    ({ s1 with circuit_breaker_until := now + 5 }, .droppedStale)
  else
    let s2 := engineUpdateTick s1
    match s2.active_market with
    | none => (s2, .noMarket)
    | some mkt =>
        let s3 := if s2.window_start_price = none
          then { s2 with window_start_price := some price } else s2
        let time_left := max 0 (s3.active_market_end_ts - now)
        if time_left ≤ 0 then (s3, .settled)
        else match s3.position with
          | some _ =>
              if s3.exiting_order then (s3, .exitSkipped) else (s3, .exitChecked)
          | none =>
              if s3.placing_order then (s3, .orderInFlight)
              else if s3.skip_first_window then (s3, .skippedFirstWindow)
              else if s3.startup_market_cid.isSome
                  ∧ s3.startup_market_cid = some mkt.condition_id then
                (s3, .startupMarketGuard)
              else if 2 ≤ s3.trades_this_window then (s3, .windowCapReached)
              else if 0 < s3.last_exit_time ∧ now - s3.last_exit_time < 5 then
                (s3, .cooldownActive)
              else if now < s3.circuit_breaker_until then (s3, .breakerBlocked)
              else (s3, .entryEvaluated)

/-! ## Lifecycle transition system

Abstract state machine over the interleavings named by the concurrency
spec: tick events (entry dispatch, exit dispatch, expiry settlement) and
detached order-task completions.  Guards and updates are the ones the
handler and tasks perform synchronously on the event-loop thread:

* entry dispatch (`_maybe_enter` reached through the `_on_price_tick`
  guard chain): requires a live market, an empty position slot, no entry
  order in flight and the per-window cap; it sets `_placing_order = True`
  before `create_task` and the task body increments the window counter
  before its first suspension point;
* exit dispatch (`_maybe_exit`): requires a live market, a held position
  and no exit order in flight; sets `_exiting_order = True` before
  `create_task`;
* settlement (`_settle_market` on an expired tick): its `finally` block
  clears the position, the market reference, the counter and both flags;
* task completions: a filled entry sets the position, a void entry
  (falsy response / zero fill / exception) rolls the counter back; a
  filled exit clears the position, a failed exit keeps it; each task's
  `finally` releases its flag.

Guards that only further restrict entry (cooldown, blackout, breaker,
signal generation itself) are abstracted as nondeterminism: the model
permits a superset of the real dispatch behaviours, so its safety
invariants carry over.  Window re-discovery by `_market_loop` is outside
this event set. -/

/-- Abstract lifecycle state: the two mutual-exclusion flags, the position
slot, the live-market reference, the per-window counter, and the number of
entry / exit orders currently in flight. -/
structure SysState where
  placing : Bool
  exiting : Bool
  hasPosition : Bool
  hasMarket : Bool
  tradesThisWindow : ℤ
  entryInFlight : ℕ
  exitInFlight : ℕ
deriving DecidableEq, Repr

/-- Boot state of the lifecycle machine: flat, no orders in flight, an
active market discovered. -/
def SysState.init : SysState :=
  { placing := false, exiting := false, hasPosition := false, hasMarket := true
    tradesThisWindow := 0, entryInFlight := 0, exitInFlight := 0 }

/-- One lifecycle event: a tick-driven dispatch or a detached-task
completion, with the synchronous guards and updates of the source. -/
inductive SysStep : SysState → SysState → Prop
  | enterDispatch (s : SysState) (hm : s.hasMarket = true)
      (hp : s.hasPosition = false) (hpl : s.placing = false)
      (hc : s.tradesThisWindow < 2) :
      SysStep s { s with placing := true
                         entryInFlight := s.entryInFlight + 1
                         tradesThisWindow := s.tradesThisWindow + 1 }
  | exitDispatch (s : SysState) (hm : s.hasMarket = true)
      (hp : s.hasPosition = true) (he : s.exiting = false) :
      SysStep s { s with exiting := true, exitInFlight := s.exitInFlight + 1 }
  | settleTick (s : SysState) (hm : s.hasMarket = true) :
      SysStep s { s with hasPosition := false, hasMarket := false
                         tradesThisWindow := 0
                         placing := false, exiting := false }
  | entryFillDone (s : SysState) (h : 1 ≤ s.entryInFlight) :
      SysStep s { s with entryInFlight := s.entryInFlight - 1
                         placing := false, hasPosition := true }
  | entryVoidDone (s : SysState) (h : 1 ≤ s.entryInFlight) :
      SysStep s { s with entryInFlight := s.entryInFlight - 1
                         placing := false
                         tradesThisWindow := s.tradesThisWindow - 1 }
  | exitFillDone (s : SysState) (h : 1 ≤ s.exitInFlight) :
      SysStep s { s with exitInFlight := s.exitInFlight - 1
                         exiting := false, hasPosition := false }
  | exitKeptDone (s : SysState) (h : 1 ≤ s.exitInFlight) :
      SysStep s { s with exitInFlight := s.exitInFlight - 1, exiting := false }

/-- States reachable from boot under any interleaving of lifecycle
events. -/
inductive SysReachable : SysState → Prop
  | init : SysReachable SysState.init
  | step {s t : SysState} : SysReachable s → SysStep s t → SysReachable t

/-- Inductive invariant: each in-flight counter is at most one, and while
an order is in flight its mutual-exclusion flag is still held unless the
window has been settled away. -/
def SysInv (s : SysState) : Prop :=
  s.entryInFlight ≤ 1 ∧ s.exitInFlight ≤ 1
    ∧ (1 ≤ s.entryInFlight → s.placing = true ∨ s.hasMarket = false)
    ∧ (1 ≤ s.exitInFlight → s.exiting = true ∨ s.hasMarket = false)

/-! ## Shared concrete instances for witnesses -/

/-- Example float-primitive oracle used by concrete witnesses. -/
def sampleTr : Transcend :=
  { log := fun _ => 0, exp := fun _ => 1, atan := fun _ => 0
    sqrt := fun _ => 1, pi := 1 }

/-- Example open position used by concrete witnesses. -/
def samplePos : OpenPosition :=
  { side := Side.up, average_entry_price := 0.55, size_usdc := 11, shares := 20 }

/-- Example market used by concrete witnesses. -/
def sampleMarket : Market := { condition_id := "c", slug := "btc-5min" }

/-- Example bot state used by concrete witnesses: mid-window, holding
`samplePos`, with both order flags raised and nonzero window-scoped
state. -/
def sampleState : BotState :=
  { ticks := []
    active_market := some sampleMarket
    position := some samplePos
    window_start_price := some 100000
    placing_order := true
    exiting_order := true
    skip_first_window := false
    startup_market_cid := none
    trades_this_window := 1
    last_exit_time := 7
    total_pnl := 0
    wins := 0
    losses := 0
    trades := 0
    active_trade_id := some "t1"
    active_market_end_ts := 300
    basis_offset := 2
    basis_history := [1, 2]
    circuit_breaker_until := 0
    trade_history := [{ side := Side.up, size := 11, pnl := -11
                        won := false, timestamp := 1 }] }

/-! ## C7 — degenerate branch of the probability model -/

/-- C7: for every input with `vol ≤ 0` or `time_left ≤ 0`, the probability
model returns exactly `0.999` when `distance_to_strike > 0` and exactly
`0.001` otherwise; in particular a distance of exactly `0` returns `0.001`
(tie-break favouring "no"). -/
theorem c7_degenerate_probability (tr : Transcend) (d v t : ℚ)
    (h : v ≤ 0 ∨ t ≤ 0) :
    (0 < d → student_t_cdf_approx tr d v t = 0.999)
    ∧ (¬0 < d → student_t_cdf_approx tr d v t = 0.001)
    ∧ (d = 0 → student_t_cdf_approx tr d v t = 0.001) := by
  refine ⟨fun hd => ?_, fun hd => ?_, fun hd => ?_⟩
  · simp [student_t_cdf_approx, h, hd]
  · simp [student_t_cdf_approx, h, hd]
  · subst hd; simp [student_t_cdf_approx, h]

/-- Witness for C7 at `vol = 0`, `time_left = 5`, distances `+1` and `0`. -/
theorem c7_degenerate_probability_witness :
    student_t_cdf_approx sampleTr 1 0 5 = 0.999
    ∧ student_t_cdf_approx sampleTr 0 0 5 = 0.001 :=
  ⟨(c7_degenerate_probability sampleTr 1 0 5 (Or.inl le_rfl)).1 (by norm_num),
   (c7_degenerate_probability sampleTr 0 0 5 (Or.inl le_rfl)).2.2 rfl⟩

/-! ## C2 — ghost-fill guard in the entry task -/

/-- C2: an entry order response reporting zero filled shares leaves the
position slot empty, restores the per-window trade counter to its
pre-attempt value, and releases the entry mutual-exclusion flag. -/
theorem c2_ghost_fill_rollback (s : BotState) (order_price : ℚ)
    (position_side : Side) (resp : EntryResp) (jr : PyResult String)
    (hpos : s.position = none) (hz : resp.takingAmount = 0) :
    (execute_entry_task s order_price position_side (.ok (some resp)) jr).position = none
    ∧ (execute_entry_task s order_price position_side (.ok (some resp)) jr).trades_this_window
        = s.trades_this_window
    ∧ (execute_entry_task s order_price position_side (.ok (some resp)) jr).placing_order
        = false := by
  simp [execute_entry_task, hz, hpos]

/-- Witness for C2: ghost fill against `sampleState` with the position
slot cleared. -/
theorem c2_ghost_fill_rollback_witness :
    (execute_entry_task { sampleState with position := none } 0.5 Side.up
        (.ok (some { takingAmount := 0, makingAmount := 3 })) (.ok "j1")).position = none
    ∧ (execute_entry_task { sampleState with position := none } 0.5 Side.up
        (.ok (some { takingAmount := 0, makingAmount := 3 })) (.ok "j1")).trades_this_window
        = ({ sampleState with position := none } : BotState).trades_this_window
    ∧ (execute_entry_task { sampleState with position := none } 0.5 Side.up
        (.ok (some { takingAmount := 0, makingAmount := 3 })) (.ok "j1")).placing_order
        = false :=
  c2_ghost_fill_rollback { sampleState with position := none } 0.5 Side.up
    { takingAmount := 0, makingAmount := 3 } (.ok "j1") rfl rfl

/-! ## C4 — unconditional settlement cleanup -/

/-- C4: every invocation of expiry settlement on a live market resets all
window-scoped fields — position, active market reference, window start
price, per-window trade counter, post-exit cooldown timestamp, basis
offset and history, and both mutual-exclusion flags — even when the PnL
computation inside the `try` block raises. -/
theorem c4_settlement_cleanup (s : BotState) (m : Market)
    (hm : s.active_market = some m) (final now : ℚ) (pnl_raises : Bool) :
    ((settle_market s final now pnl_raises).1.position = none)
    ∧ ((settle_market s final now pnl_raises).1.active_market = none)
    ∧ ((settle_market s final now pnl_raises).1.window_start_price = none)
    ∧ ((settle_market s final now pnl_raises).1.trades_this_window = 0)
    ∧ ((settle_market s final now pnl_raises).1.last_exit_time = 0)
    ∧ ((settle_market s final now pnl_raises).1.basis_offset = 0)
    ∧ ((settle_market s final now pnl_raises).1.basis_history = [])
    ∧ ((settle_market s final now pnl_raises).1.placing_order = false)
    ∧ ((settle_market s final now pnl_raises).1.exiting_order = false) := by
  simp only [settle_market, hm]
  cases s.position <;> simp

/-- Witness for C4: settlement of `sampleState` with a forced PnL
exception still clears every window-scoped field. -/
theorem c4_settlement_cleanup_witness :
    ((settle_market sampleState 100050 300 true).1.position = none)
    ∧ ((settle_market sampleState 100050 300 true).1.active_market = none)
    ∧ ((settle_market sampleState 100050 300 true).1.window_start_price = none)
    ∧ ((settle_market sampleState 100050 300 true).1.trades_this_window = 0)
    ∧ ((settle_market sampleState 100050 300 true).1.last_exit_time = 0)
    ∧ ((settle_market sampleState 100050 300 true).1.basis_offset = 0)
    ∧ ((settle_market sampleState 100050 300 true).1.basis_history = [])
    ∧ ((settle_market sampleState 100050 300 true).1.placing_order = false)
    ∧ ((settle_market sampleState 100050 300 true).1.exiting_order = false) :=
  c4_settlement_cleanup sampleState sampleMarket rfl 100050 300 true

/-! ## C10 — opposite tie-breaks at an exact strike touch -/

/-- C10: when the final spot equals the window start price, the local
settlement guess is `Up` (the comparison is `final >= start`), so a held
`Up` position is scored as a win on an exact tie — the opposite tie-break
direction from the probability model, whose degenerate branch resolves an
exact-zero distance to "no" (`0.001`). -/
theorem c10_settlement_tie_break (s : BotState) (m : Market) (p now : ℚ)
    (pos : OpenPosition) (hm : s.active_market = some m)
    (hw : s.window_start_price = some p) (hp : s.position = some pos)
    (hside : pos.side = Side.up) (hentry : 0 < pos.average_entry_price) :
    localWinner (some p) p = Side.up
    ∧ (settle_market s p now false).1.wins = s.wins + 1
    ∧ (∀ (tr : Transcend) (v t : ℚ), v ≤ 0 ∨ t ≤ 0 →
        student_t_cdf_approx tr 0 v t = 0.001) := by
  refine ⟨by simp [localWinner], ?_, fun tr v t h => by simp [student_t_cdf_approx, h]⟩
  simp [settle_market, hm, hp, localWinner, hw, hside]

/-- Witness for C10: `sampleState` holds an `Up` position and the final
price exactly equals the `100000` window start price. -/
theorem c10_settlement_tie_break_witness :
    localWinner (some 100000) 100000 = Side.up
    ∧ (settle_market sampleState 100000 300 false).1.wins = sampleState.wins + 1
    ∧ (∀ (tr : Transcend) (v t : ℚ), v ≤ 0 ∨ t ≤ 0 →
        student_t_cdf_approx tr 0 v t = 0.001) :=
  c10_settlement_tie_break sampleState sampleMarket 100000 300 samplePos
    rfl rfl rfl rfl (by norm_num [samplePos])

/-! ## C3 — exit failure keeps the position (amended) -/

/-- C3 (amended): for every exit attempt whose sell token id resolves, the
position slot is cleared only on a non-null order response: when the exit
order raises or returns `None`, the task leaves the `OpenPosition` intact
for the next tick's retry, releases only the exit mutual-exclusion flag,
and changes no session statistics.  (When the token id does not resolve,
the source's guard `if sell_resp is None and token_id:` lets the clearing
path run without any order — see the counterexample.) -/
theorem c3_exit_failure_keeps_position (s : BotState) (tid : String)
    (effective_bid sell_shares pos_entry pos_usdc : ℚ) (pos_side : Side)
    (now : ℚ) (res : PyResult (Option Unit))
    (hres : res = .exn ∨ res = .ok none) :
    (execute_exit_task s (some tid) effective_bid sell_shares pos_entry
        pos_usdc pos_side now res).position = s.position
    ∧ (execute_exit_task s (some tid) effective_bid sell_shares pos_entry
        pos_usdc pos_side now res).exiting_order = false
    ∧ (execute_exit_task s (some tid) effective_bid sell_shares pos_entry
        pos_usdc pos_side now res).trades = s.trades
    ∧ (execute_exit_task s (some tid) effective_bid sell_shares pos_entry
        pos_usdc pos_side now res).wins = s.wins
    ∧ (execute_exit_task s (some tid) effective_bid sell_shares pos_entry
        pos_usdc pos_side now res).losses = s.losses
    ∧ (execute_exit_task s (some tid) effective_bid sell_shares pos_entry
        pos_usdc pos_side now res).total_pnl = s.total_pnl
    ∧ (execute_exit_task s (some tid) effective_bid sell_shares pos_entry
        pos_usdc pos_side now res).trade_history = s.trade_history := by
  rcases hres with h | h <;> subst h <;> simp [execute_exit_task]

/-- Witness for C3 (amended): a null sell response against `sampleState`
leaves the held position and all session statistics unchanged. -/
theorem c3_exit_failure_keeps_position_witness :
    (execute_exit_task sampleState (some "tok") 0.99 20 0.55 11 Side.up 200
        (.ok none)).position = sampleState.position
    ∧ (execute_exit_task sampleState (some "tok") 0.99 20 0.55 11 Side.up 200
        (.ok none)).exiting_order = false
    ∧ (execute_exit_task sampleState (some "tok") 0.99 20 0.55 11 Side.up 200
        (.ok none)).trades = sampleState.trades
    ∧ (execute_exit_task sampleState (some "tok") 0.99 20 0.55 11 Side.up 200
        (.ok none)).wins = sampleState.wins
    ∧ (execute_exit_task sampleState (some "tok") 0.99 20 0.55 11 Side.up 200
        (.ok none)).losses = sampleState.losses
    ∧ (execute_exit_task sampleState (some "tok") 0.99 20 0.55 11 Side.up 200
        (.ok none)).total_pnl = sampleState.total_pnl
    ∧ (execute_exit_task sampleState (some "tok") 0.99 20 0.55 11 Side.up 200
        (.ok none)).trade_history = sampleState.trade_history :=
  c3_exit_failure_keeps_position sampleState "tok" 0.99 20 0.55 11 Side.up 200
    (.ok none) (Or.inr rfl)

/-- Counterexample to C3 as stated: with an unresolved token id
(`token_id = None`) no exit order is placed, so there is no confirmed exit
fill and `sell_resp` stays `None`, yet the exit task clears the position
slot and updates the session statistics, because the keep-for-retry guard
`if sell_resp is None and token_id:` is skipped when `token_id` is
falsy. -/
theorem c3_counterexample :
    sampleState.position = some samplePos
    ∧ (execute_exit_task sampleState none 0.99 20 0.55 11 Side.up 200
        (.ok none)).position = none
    ∧ (execute_exit_task sampleState none 0.99 20 0.55 11 Side.up 200
        (.ok none)).total_pnl ≠ sampleState.total_pnl := by
  refine ⟨rfl, rfl, ?_⟩
  norm_num [execute_exit_task, sampleState]

/-! ## C5 — delta correction by the background settlement check -/

/-- C5: when the authoritative API winner disagrees with the local
settlement guess for a settled position, the background correction changes
cumulative total PnL by exactly `correct_pnl - previously_applied_pnl`
(win pays `(1 - entry) * (size / entry)`, loss pays `-size`), moves one
count between wins and losses, patches only the most recent trade record's
`won` flag and PnL, and touches no other history or counters. -/
theorem c5_delta_correction (s : BotState) (pos : OpenPosition) (lw w : Side)
    (hne : w ≠ lw) (hh : s.trade_history ≠ []) :
    (background_settle s lw (some pos) (some w)).total_pnl
        = s.total_pnl + (settlePnl pos w - settlePnl pos lw)
    ∧ (if pos.side = w
        then (background_settle s lw (some pos) (some w)).wins = s.wins + 1
          ∧ (background_settle s lw (some pos) (some w)).losses = s.losses - 1
        else (background_settle s lw (some pos) (some w)).wins = s.wins - 1
          ∧ (background_settle s lw (some pos) (some w)).losses = s.losses + 1)
    ∧ (background_settle s lw (some pos) (some w)).trade_history
        = s.trade_history.dropLast
          ++ [{ s.trade_history.getLastD
                  { side := Side.up, size := 0, pnl := 0, won := false, timestamp := 0 }
                with won := decide (pos.side = w), pnl := settlePnl pos w }]
    ∧ (background_settle s lw (some pos) (some w)).trades = s.trades
    ∧ (background_settle s lw (some pos) (some w)).position = s.position := by
  have hpw : (pos.side = lw) = ¬(pos.side = w) := by
    cases hsw : pos.side <;> cases w <;> cases lw <;> simp_all
  by_cases hc : pos.side = w
  · constructor
    · simp [background_settle, hne, hh, settlePnl, hc, hpw]
    · simp [background_settle, hne, hh, settlePnl, hc, hpw]
  · constructor
    · simp [background_settle, hne, hh, settlePnl, hc, hpw]
    · simp [background_settle, hne, hh, settlePnl, hc, hpw]

/-- Witness for C5: the API reports `Down` after a local `Up` guess on the
held `Up` position of `sampleState`; the stats move by
`-11 - 9 = -20` relative to the optimistic win. -/
theorem c5_delta_correction_witness :
    (background_settle sampleState Side.up (some samplePos) (some Side.down)).total_pnl
        = sampleState.total_pnl
          + (settlePnl samplePos Side.down - settlePnl samplePos Side.up)
    ∧ ((background_settle sampleState Side.up (some samplePos) (some Side.down)).wins
        = sampleState.wins - 1
      ∧ (background_settle sampleState Side.up (some samplePos) (some Side.down)).losses
        = sampleState.losses + 1)
    ∧ (background_settle sampleState Side.up (some samplePos) (some Side.down)).trade_history
        = sampleState.trade_history.dropLast
          ++ [{ sampleState.trade_history.getLastD
                  { side := Side.up, size := 0, pnl := 0, won := false, timestamp := 0 }
                with won := decide (samplePos.side = Side.down)
                     pnl := settlePnl samplePos Side.down }]
    ∧ (background_settle sampleState Side.up (some samplePos) (some Side.down)).trades
        = sampleState.trades
    ∧ (background_settle sampleState Side.up (some samplePos) (some Side.down)).position
        = sampleState.position := by
  have h := c5_delta_correction sampleState samplePos Side.up Side.down
    (by decide) (by norm_num [sampleState])
  refine ⟨h.1, ?_, h.2.2.1, h.2.2.2.1, h.2.2.2.2⟩
  have h2 := h.2.1
  rwa [if_neg (by simp [samplePos])] at h2

/-! ## C1 — lifecycle mutual exclusion -/

/-- Invariant `SysInv` holds in the boot state. -/
lemma sysInv_init : SysInv SysState.init := by
  simp [SysInv, SysState.init]

/-- Invariant `SysInv` is preserved by every lifecycle event. -/
lemma sysInv_step {s t : SysState} (h : SysInv s) (hs : SysStep s t) :
    SysInv t := by
  obtain ⟨he1, hx1, he2, hx2⟩ := h
  cases hs with
  | enterDispatch hm hp hpl hc =>
      have h0 : s.entryInFlight = 0 := by
        rcases Nat.eq_zero_or_pos s.entryInFlight with h' | h'
        · exact h'
        · rcases he2 h' with hb | hb
          · rw [hpl] at hb; exact absurd hb (by simp)
          · rw [hm] at hb; exact absurd hb (by simp)
      refine ⟨by simp [h0], by simpa using hx1, ?_, ?_⟩
      · intro _; exact Or.inl rfl
      · intro hx; rcases hx2 (by simpa using hx) with hb | hb
        · exact Or.inl (by simpa using hb)
        · exact Or.inr (by simpa using hb)
  | exitDispatch hm hp he =>
      have h0 : s.exitInFlight = 0 := by
        rcases Nat.eq_zero_or_pos s.exitInFlight with h' | h'
        · exact h'
        · rcases hx2 h' with hb | hb
          · rw [he] at hb; exact absurd hb (by simp)
          · rw [hm] at hb; exact absurd hb (by simp)
      refine ⟨by simpa using he1, by simp [h0], ?_, ?_⟩
      · intro hx; rcases he2 (by simpa using hx) with hb | hb
        · exact Or.inl (by simpa using hb)
        · exact Or.inr (by simpa using hb)
      · intro _; exact Or.inl rfl
  | settleTick hm =>
      exact ⟨by simpa using he1, by simpa using hx1,
        fun _ => Or.inr rfl, fun _ => Or.inr rfl⟩
  | entryFillDone h =>
      refine ⟨by simp; omega, by simpa using hx1, by simp; omega, ?_⟩
      intro hx; rcases hx2 (by simpa using hx) with hb | hb
      · exact Or.inl (by simpa using hb)
      · exact Or.inr (by simpa using hb)
  | entryVoidDone h =>
      refine ⟨by simp; omega, by simpa using hx1, by simp; omega, ?_⟩
      intro hx; rcases hx2 (by simpa using hx) with hb | hb
      · exact Or.inl (by simpa using hb)
      · exact Or.inr (by simpa using hb)
  | exitFillDone h =>
      refine ⟨by simpa using he1, by simp; omega, ?_, by simp; omega⟩
      intro hx; rcases he2 (by simpa using hx) with hb | hb
      · exact Or.inl (by simpa using hb)
      · exact Or.inr (by simpa using hb)
  | exitKeptDone h =>
      refine ⟨by simpa using he1, by simp; omega, ?_, by simp; omega⟩
      intro hx; rcases he2 (by simpa using hx) with hb | hb
      · exact Or.inl (by simpa using hb)
      · exact Or.inr (by simpa using hb)

/-- Invariant `SysInv` holds in every reachable lifecycle state. -/
lemma sysInv_reachable {s : SysState} (h : SysReachable s) : SysInv s := by
  induction h with
  | init => exact sysInv_init
  | step _ hs ih => exact sysInv_step ih hs

/-- C1: in every reachable lifecycle state, under any interleaving of tick
events (entry dispatch, exit dispatch, expiry settlement) and detached
order-task completions, at most one entry order and at most one exit
order is in flight: `_placing_order` is set synchronously before the
entry task is dispatched and blocks a second entry dispatch while it (or
an open position, or the window cap) holds, and `_exiting_order` likewise
serialises exit dispatches. -/
theorem c1_mutual_exclusion (s : SysState) (h : SysReachable s) :
    s.entryInFlight ≤ 1 ∧ s.exitInFlight ≤ 1 :=
  ⟨(sysInv_reachable h).1, (sysInv_reachable h).2.1⟩

/-- Witness for C1: the state reached by dispatching one entry order from
boot is reachable and satisfies the bound. -/
theorem c1_mutual_exclusion_witness :
    ({ SysState.init with placing := true
                          entryInFlight := SysState.init.entryInFlight + 1
                          tradesThisWindow := SysState.init.tradesThisWindow + 1 }
        : SysState).entryInFlight ≤ 1
    ∧ ({ SysState.init with placing := true
                            entryInFlight := SysState.init.entryInFlight + 1
                            tradesThisWindow := SysState.init.tradesThisWindow + 1 }
        : SysState).exitInFlight ≤ 1 :=
  c1_mutual_exclusion _
    (SysReachable.step SysReachable.init
      (SysStep.enterDispatch SysState.init rfl rfl rfl (by norm_num [SysState.init])))

/-! ## C9 — tier ladder with hysteresis -/

/-- The tier scan returns its accumulator or the index of some element
that is at most `raw`. -/
lemma tierGo_mem (raw : ℚ) : ∀ (l : List ℚ) (i acc : ℕ),
    tierGo raw l i acc = acc
    ∨ ∃ j, ∃ hj : j < l.length, tierGo raw l i acc = i + j ∧ l.get ⟨j, hj⟩ ≤ raw := by
  intro l
  induction l with
  | nil => intro i acc; exact Or.inl rfl
  | cons b rest ih =>
      intro i acc
      by_cases hb : b ≤ raw
      · rcases ih (i + 1) i with h' | ⟨j, hj, heq, hle⟩
        · refine Or.inr ⟨0, by simp, ?_, by simpa using hb⟩
          simp [tierGo, hb, h']
        · refine Or.inr ⟨j + 1, by simpa using Nat.succ_lt_succ hj, ?_, by simpa using hle⟩
          simp only [tierGo, if_pos hb, heq]
          omega
      · exact Or.inl (by simp [tierGo, hb])

/-- On a sorted tier list, the scan result dominates the position of every
element that is at most `raw`: the loop computes the highest qualifying
index. -/
lemma tierGo_max (raw : ℚ) : ∀ (l : List ℚ), l.Sorted (· ≤ ·) →
    ∀ (i acc j : ℕ) (hj : j < l.length), l.get ⟨j, hj⟩ ≤ raw →
    i + j ≤ tierGo raw l i acc := by
  intro l
  induction l with
  | nil => intro _ i acc j hj; exact absurd hj (by simp)
  | cons b rest ih =>
      intro hs i acc j hj hle
      rcases List.sorted_cons.mp hs with ⟨hball, hrest⟩
      by_cases hb : b ≤ raw
      · cases j with
        | zero =>
            have hlow : i ≤ tierGo raw rest (i + 1) i := by
              rcases tierGo_mem raw rest (i + 1) i with h' | ⟨j', hj', heq, _⟩
              · simp [h']
              · rw [heq]; omega
            simpa [tierGo, hb] using hlow
        | succ k =>
            have hk : k < rest.length := by simpa using hj
            have hle' : rest.get ⟨k, hk⟩ ≤ raw := by simpa using hle
            have := ih hrest (i + 1) i k hk hle'
            simp only [tierGo, if_pos hb]
            omega
      · exfalso
        cases j with
        | zero => exact hb (by simpa using hle)
        | succ k =>
            have hk : k < rest.length := by simpa using hj
            have hble : b ≤ rest.get ⟨k, hk⟩ := hball _ (List.get_mem rest k hk)
            exact hb (le_trans hble (by simpa using hle))

/-- The configured tier table is ascending. -/
lemma bet_tiers_sorted : BET_TIERS.Sorted (· ≤ ·) := by
  rw [List.Sorted, ← List.chain'_iff_pairwise]
  norm_num [BET_TIERS, List.chain'_cons]

/-- The tier scan always lands inside the table. -/
lemma targetIdx_lt (raw : ℚ) : targetIdx raw < BET_TIERS.length := by
  rcases tierGo_mem raw BET_TIERS 0 0 with h | ⟨j, hj, heq, _⟩
  · rw [targetIdx, h]; norm_num [BET_TIERS]
  · rw [targetIdx, heq]; simpa using hj

/-- Either some tier qualifies and the scan picks a qualifying one, or no
tier qualifies and the scan stays at index `0`. -/
lemma targetIdx_qualifies (raw : ℚ) :
    BET_TIERS.getD (targetIdx raw) 0 ≤ raw ∨ targetIdx raw = 0 := by
  rcases tierGo_mem raw BET_TIERS 0 0 with h | ⟨j, hj, heq, hle⟩
  · exact Or.inr h
  · left
    have hidx : targetIdx raw = j := by rw [targetIdx, heq]; omega
    rw [hidx, List.getD_eq_get BET_TIERS 0 (hidx ▸ targetIdx_lt raw)]
    exact hle

/-- The scan result is the highest index whose tier is at most `raw`. -/
lemma targetIdx_maximal (raw : ℚ) (j : ℕ) (hj : j < BET_TIERS.length)
    (hle : BET_TIERS.getD j 0 ≤ raw) : j ≤ targetIdx raw := by
  have hle' : BET_TIERS.get ⟨j, hj⟩ ≤ raw := by
    rwa [List.getD_eq_get BET_TIERS 0 hj] at hle
  simpa [targetIdx] using tierGo_max raw BET_TIERS bet_tiers_sorted 0 0 j hj hle'

/-- C9: the ladder computes `raw = balance * 0.03` and `target_index` as
the highest index whose tier is at most `raw` (`0` if none qualify), and
stays at `current_tier_index` exactly when `target_index <
current_tier_index` and `raw ≥ tier[current] * 0.80`, otherwise moving to
`target_index`.  In particular balance `50` (raw `1.5`) lands on tier
index `2` (`$1.50`), a drop to raw `1.3` stays there because
`1.3 ≥ 1.20`, and any raw below `1.20` steps the index down. -/
theorem c9_tier_ladder (balance : ℚ) (idx : ℕ)
    (hidx : idx < BET_TIERS.length) :
    (BET_TIERS.getD (targetIdx (balance * 0.03)) 0 ≤ balance * 0.03
        ∨ targetIdx (balance * 0.03) = 0)
    ∧ (∀ j, j < BET_TIERS.length → BET_TIERS.getD j 0 ≤ balance * 0.03
        → j ≤ targetIdx (balance * 0.03))
    ∧ get_tier_bet balance idx
        = (if targetIdx (balance * 0.03) < idx
              ∧ BET_TIERS.getD idx 0 * TIER_HYSTERESIS ≤ balance * 0.03
           then (BET_TIERS.getD idx 0, idx)
           else (BET_TIERS.getD (targetIdx (balance * 0.03)) 0,
                 targetIdx (balance * 0.03)))
    ∧ get_tier_bet 50 0 = (1.50, 2)
    ∧ get_tier_bet (130/3) 2 = (1.50, 2)
    ∧ (∀ b : ℚ, b * 0.03 < 1.20 → (get_tier_bet b 2).2 ≤ 1) := by
  refine ⟨targetIdx_qualifies _, fun j hj hle => targetIdx_maximal _ j hj hle,
    ?_, ?_, ?_, ?_⟩
  · by_cases h1 : targetIdx (balance * 0.03) < idx
    · by_cases h2 : BET_TIERS.getD idx 0 * TIER_HYSTERESIS ≤ balance * 0.03
      · simp [get_tier_bet, h1, hidx, h2]
      · simp [get_tier_bet, h1, hidx, h2]
    · simp [get_tier_bet, h1]
  · norm_num [get_tier_bet, targetIdx, tierGo, BET_TIERS, TIER_HYSTERESIS]
  · norm_num [get_tier_bet, targetIdx, tierGo, BET_TIERS, TIER_HYSTERESIS]
  · intro b hb
    have ht : targetIdx (b * 0.03) ≤ 1 := by
      rcases targetIdx_qualifies (b * 0.03) with h | h
      · by_contra hgt
        push_neg at hgt
        have hlt := targetIdx_lt (b * 0.03)
        have h2t : (⟨2, by norm_num [BET_TIERS]⟩ : Fin BET_TIERS.length)
            ≤ ⟨targetIdx (b * 0.03), hlt⟩ := by
          simpa [Fin.le_def] using hgt
        have hmono := bet_tiers_sorted.rel_get_of_le h2t
        have hval : BET_TIERS.get (⟨2, by norm_num [BET_TIERS]⟩ :
            Fin BET_TIERS.length) = 1.50 := by
          norm_num [BET_TIERS]
        rw [List.getD_eq_get BET_TIERS 0 hlt] at h
        rw [hval] at hmono
        linarith
      · omega
    have h2 : ¬ BET_TIERS.getD 2 0 * TIER_HYSTERESIS ≤ b * 0.03 := by
      norm_num [BET_TIERS, TIER_HYSTERESIS]
      linarith
    have heq : (get_tier_bet b 2).2 = targetIdx (b * 0.03) := by
      simp only [get_tier_bet]
      split_ifs <;> rfl
    exact heq ▸ ht

/-- Witness for C9 at balance `50`, current tier index `0`. -/
theorem c9_tier_ladder_witness :
    ((BET_TIERS.getD (targetIdx (50 * 0.03)) 0 ≤ 50 * 0.03
        ∨ targetIdx (50 * 0.03) = 0)
      ∧ get_tier_bet 50 0 = (1.50, 2)) := by
  have h := c9_tier_ladder 50 0 (by norm_num [BET_TIERS])
  exact ⟨h.1, h.2.2.2.1⟩

/-! ## C6 — stale-tick circuit breaker (amended) -/

/-- C6 (amended): a tick whose ingestion timestamp is more than 500 ms
older than observation time is appended to the shared tick buffer but
triggers no estimator update and no trade decision — the handler returns
immediately after setting `blocked_until = now + 5 s`, leaving all
lifecycle state untouched; while `blocked_until` has not elapsed, new
entries are suppressed at the circuit-breaker guard, but exits and
settlement still proceed (their dispatch points come before that
guard). -/
theorem c6_circuit_breaker (s : BotState) (price tms now : ℚ) :
    (1/2 < now - tms / 1000 →
      (on_price_tick s price tms now).2 = TickAction.droppedStale
      ∧ (on_price_tick s price tms now).1.ticks
          = pushBounded 120 s.ticks (price, tms / 1000)
      ∧ (on_price_tick s price tms now).1.circuit_breaker_until = now + 5
      ∧ (on_price_tick s price tms now).1.position = s.position
      ∧ (on_price_tick s price tms now).1.active_market = s.active_market
      ∧ (on_price_tick s price tms now).1.trades_this_window = s.trades_this_window
      ∧ (on_price_tick s price tms now).1.total_pnl = s.total_pnl)
    ∧ (∀ m : Market, ¬1/2 < now - tms / 1000 → s.active_market = some m →
        now < s.active_market_end_ts → s.position = none →
        s.placing_order = false → s.skip_first_window = false →
        s.startup_market_cid = none → s.trades_this_window < 2 →
        s.last_exit_time = 0 → now < s.circuit_breaker_until →
        (on_price_tick s price tms now).2 = TickAction.breakerBlocked)
    ∧ (∀ (m : Market) (pos : OpenPosition), ¬1/2 < now - tms / 1000 →
        s.active_market = some m → now < s.active_market_end_ts →
        s.position = some pos → s.exiting_order = false →
        (on_price_tick s price tms now).2 = TickAction.exitChecked)
    ∧ (∀ m : Market, ¬1/2 < now - tms / 1000 → s.active_market = some m →
        s.active_market_end_ts ≤ now →
        (on_price_tick s price tms now).2 = TickAction.settled) := by
  refine ⟨fun hstale => ?_, fun m hfresh hm hend hpos hpl hskip hcid hcap hcool hblk => ?_,
    fun m pos hfresh hm hend hpos hexit => ?_, fun m hfresh hm hend => ?_⟩
  · simp only [on_price_tick]
    rw [if_pos hstale]
    exact ⟨rfl, rfl, rfl, rfl, rfl, rfl, rfl⟩
  · have hnz : ¬max 0 (s.active_market_end_ts - now) ≤ 0 := by
      rw [max_le_iff]; push_neg; intro _; linarith
    have hcap' : ¬(2 : ℤ) ≤ s.trades_this_window := not_le.mpr hcap
    have hcool' : ¬(0 < s.last_exit_time ∧ now - s.last_exit_time < 5) := by
      rw [hcool]; simp
    simp only [on_price_tick, engineUpdateTick]
    rw [if_neg hfresh]
    by_cases hw : s.window_start_price = none <;>
      simp [hm, hnz, hw, hpos, hpl, hskip, hcid, hcap', hcool', hblk]
  · have hnz : ¬max 0 (s.active_market_end_ts - now) ≤ 0 := by
      rw [max_le_iff]; push_neg; intro _; linarith
    simp only [on_price_tick, engineUpdateTick]
    rw [if_neg hfresh]
    by_cases hw : s.window_start_price = none <;>
      simp [hm, hnz, hw, hpos, hexit]
  · have hz : max 0 (s.active_market_end_ts - now) ≤ 0 := by
      rw [max_le_iff]; constructor <;> linarith
    simp only [on_price_tick, engineUpdateTick]
    rw [if_neg hfresh]
    by_cases hw : s.window_start_price = none <;> simp [hm, hz, hw]

/-- Witness for C6 (amended), exercising all four branches: a stale tick
into `sampleState`; a blocked entry attempt; an exit check while blocked;
and settlement while blocked. -/
theorem c6_circuit_breaker_witness :
    ((on_price_tick sampleState 100 0 10).2 = TickAction.droppedStale
      ∧ (on_price_tick sampleState 100 0 10).1.ticks
          = pushBounded 120 sampleState.ticks (100, 0 / 1000)
      ∧ (on_price_tick sampleState 100 0 10).1.circuit_breaker_until = 10 + 5
      ∧ (on_price_tick sampleState 100 0 10).1.position = sampleState.position
      ∧ (on_price_tick sampleState 100 0 10).1.active_market = sampleState.active_market
      ∧ (on_price_tick sampleState 100 0 10).1.trades_this_window
          = sampleState.trades_this_window
      ∧ (on_price_tick sampleState 100 0 10).1.total_pnl = sampleState.total_pnl)
    ∧ (on_price_tick
        { sampleState with position := none
                           placing_order := false
                           last_exit_time := 0
                           trades_this_window := 0
                           circuit_breaker_until := 200 } 100 100000 100).2
        = TickAction.breakerBlocked
    ∧ (on_price_tick { sampleState with exiting_order := false
                                        circuit_breaker_until := 200 }
          100 100000 100).2
        = TickAction.exitChecked
    ∧ (on_price_tick { sampleState with circuit_breaker_until := 400 }
          100 300000 300).2 = TickAction.settled := by
  refine ⟨(c6_circuit_breaker sampleState 100 0 10).1 (by norm_num), ?_, ?_, ?_⟩
  · exact (c6_circuit_breaker _ 100 100000 100).2.1 sampleMarket (by norm_num)
      rfl (by norm_num [sampleState]) rfl rfl rfl rfl
      (by norm_num [sampleState]) rfl (by norm_num)
  · exact (c6_circuit_breaker _ 100 100000 100).2.2.1 sampleMarket samplePos
      (by norm_num) rfl (by norm_num [sampleState]) rfl rfl
  · exact (c6_circuit_breaker _ 100 300000 300).2.2.2 sampleMarket
      (by norm_num) rfl (by norm_num [sampleState])

/-- Counterexample to C6 as stated: the stale tick does enter the tick
buffer — `self.ticks.append((price, ts))` runs before the staleness check
— so "it enters no buffer" fails: from an empty buffer, handling a
10-second-old tick leaves the dropped tick stored in the buffer. -/
theorem c6_counterexample :
    (on_price_tick sampleState 100 0 10).2 = TickAction.droppedStale
    ∧ (on_price_tick sampleState 100 0 10).1.ticks = [(100, 0)]
    ∧ (on_price_tick sampleState 100 0 10).1.ticks ≠ sampleState.ticks := by
  norm_num [on_price_tick, pushBounded, sampleState]

/-! ## C8 — net edge and the dynamic minimum-edge gate -/

set_option maxHeartbeats 1600000 in
/-- C8: whenever `generate_signals` returns a `Signal`, its `edge` equals
the larger of the two raw edges — adjusted probability minus ask for YES,
one-minus-probability minus ask for NO, ties resolved to YES by the `>=`
comparison — minus the fixed execution-friction constant `0.015`
(`netEdgeOf`), and that net edge is at least the dynamic threshold
`0.015 + (0.040 - 0.015) * time_left / 300` (`dynamicMinEdge`); any
evaluation whose net edge falls below this threshold returns no
signal. -/
theorem c8_net_edge_gate :
    (∀ (tr : Transcend) (ticks : List (ℚ × ℚ))
        (spot strike time_left yes_ask no_ask balance : ℚ) (idx idx2 : ℕ)
        (sig : Signal),
        generate_signals tr ticks spot strike time_left yes_ask no_ask balance idx
          = (some sig, idx2) →
        sig.edge = netEdgeOf tr ticks spot strike time_left yes_ask no_ask
        ∧ dynamicMinEdge time_left ≤ sig.edge)
    ∧ (∀ (tr : Transcend) (ticks : List (ℚ × ℚ))
        (spot strike time_left yes_ask no_ask balance : ℚ) (idx : ℕ),
        netEdgeOf tr ticks spot strike time_left yes_ask no_ask
          < dynamicMinEdge time_left →
        (generate_signals tr ticks spot strike time_left yes_ask no_ask balance idx).1
          = none) := by
  constructor
  · intro tr ticks spot strike time_left yes_ask no_ask balance idx idx2 sig h
    simp only [generate_signals] at h
    set v := compute_micro_vol tr ticks with hv
    set vel := compute_tick_velocity ticks TOXIC_LOOKBACK with hvel
    set sm := signedMove ticks with hsm
    set tp := adjustedTrueProb tr v vel sm spot strike time_left with htp
    set ned := netEdgeOf tr ticks spot strike time_left yes_ask no_ask with hned
    by_cases h0 : v ≤ 0
    · rw [if_pos h0] at h; simp at h
    rw [if_neg h0] at h
    by_cases h1 : ned < dynamicMinEdge time_left
    · rw [if_pos h1] at h; simp at h
    rw [if_neg h1] at h
    split_ifs at h <;>
      first
      | (refine absurd h ?_
         simp
         done)
      | (simp only [Prod.mk.injEq, Option.some.injEq] at h
         obtain ⟨hsig, _⟩ := h
         subst hsig
         exact ⟨rfl, not_lt.mp h1⟩)
  · intro tr ticks spot strike time_left yes_ask no_ask balance idx h
    by_cases h0 : compute_micro_vol tr ticks ≤ 0
    · simp [generate_signals, h0]
    · simp only [generate_signals]
      rw [if_neg h0, if_pos h]

set_option maxHeartbeats 2000000 in
/-- Witness for C8: a concrete accepted evaluation whose signal edge is
`0.385 = netEdgeOf ... ≥ dynamicMinEdge 150 = 0.0275`, and a concrete
rejected evaluation (both asks at `0.50`, net edge `-0.015`) that returns
no signal. -/
theorem c8_net_edge_gate_witness :
    (({ side := SigSide.yes, true_prob := 1/2, edge := 77/200, size := 19/5
        micro_vol := 1, tick_velocity := 4, momentum_sign := 1
        market_price := 0.10, ev_usdc := 1463/1000 } : Signal).edge
        = netEdgeOf sampleTr [(100, 0), (104, 1), (104, 2)] 104 104 150 0.10 0.90
      ∧ dynamicMinEdge 150
        ≤ ({ side := SigSide.yes, true_prob := 1/2, edge := 77/200, size := 19/5
             micro_vol := 1, tick_velocity := 4, momentum_sign := 1
             market_price := 0.10, ev_usdc := 1463/1000 } : Signal).edge)
    ∧ (generate_signals sampleTr [(100, 0), (104, 1), (104, 2)] 104 104 150
        0.50 0.50 100 0).1 = none :=
  ⟨c8_net_edge_gate.1 sampleTr [(100, 0), (104, 1), (104, 2)] 104 104 150
      0.10 0.90 100 0 5
      { side := SigSide.yes, true_prob := 1/2, edge := 77/200, size := 19/5
        micro_vol := 1, tick_velocity := 4, momentum_sign := 1
        market_price := 0.10, ev_usdc := 1463/1000 }
      (by norm_num [generate_signals, netEdgeOf, adjustedTrueProb,
        compute_micro_vol, secBarPrices, logReturns, sampleStdev,
        compute_tick_velocity, signedMove, student_t_cdf_approx,
        calculate_bet_size, get_tier_bet, targetIdx, tierGo, pyTrunc, sampleTr,
        List.dedup_cons_of_not_mem, List.insertionSort, List.orderedInsert,
        List.find?, List.filter, EXECUTION_FRICTION, BASE_MIN_EDGE,
        MAX_START_EDGE, dynamicMinEdge, TOXIC_FLOW_THRESH, TOXIC_LOOKBACK,
        MOMENTUM_WEIGHT, MIN_TICK_VELOCITY, ENTRY_MIN_PRICE, ENTRY_MAX_PRICE,
        KELLY_FRACTION, MAX_BET_MULTIPLIER, MIN_SHARES, MIN_EV_USDC, BET_TIERS,
        TIER_HYSTERESIS]),
   c8_net_edge_gate.2 sampleTr [(100, 0), (104, 1), (104, 2)] 104 104 150
      0.50 0.50 100 0
      (by norm_num [netEdgeOf, adjustedTrueProb, compute_micro_vol,
        secBarPrices, logReturns, sampleStdev, compute_tick_velocity,
        signedMove, student_t_cdf_approx, pyTrunc, sampleTr,
        List.dedup_cons_of_not_mem, List.insertionSort, List.orderedInsert,
        List.find?, List.filter, EXECUTION_FRICTION, BASE_MIN_EDGE,
        MAX_START_EDGE, dynamicMinEdge, TOXIC_FLOW_THRESH, TOXIC_LOOKBACK,
        MOMENTUM_WEIGHT, MIN_TICK_VELOCITY])⟩
